import Mathlib

/-!
Verification of `pl_bolts/models/rl/per_dqn_model.py` (class `PERDQN`):
a shallow embedding of `PERDQN.loss` and `PERDQN.training_step` over exact
rational arithmetic, together with a model of the priority replay buffer
(`PERBuffer`, whose source lives outside this tree and is modelled from the
spec) and a separate float-valued model of the priority write-back path used
to examine non-finite values.

Conventions of the embedding:
* torch tensors of scalars become `List ℚ`; boolean masks become `List Bool`.
* A network (`self.net`, `self.target_net`) is represented by its forward
  function `ℕ → List ℚ`, mapping an (abstract) state to the row of action
  values; `load_state_dict` is replacement of that function.
* The environment, agent and trainer are external collaborators: the result
  of `self.source.step()` enters `training_step` as the arguments
  `reward`/`done`, and `self.global_step` as the argument `global_step`.
-/

set_option autoImplicit false

/-- The minibatch `(states, actions, rewards, dones, next_states)` unpacked
at the top of `PERDQN.loss`. -/
structure QBatch where
  states : List ℕ
  actions : List ℕ
  rewards : List ℚ
  dones : List Bool
  next_states : List ℕ

/-- Batch size: the common length of the five fields of a well-formed batch. -/
def QBatch.size (b : QBatch) : ℕ := b.states.length

/-- Well-formedness of a batch: all five component lists have equal length
(true of every batch torch would accept without broadcasting surprises). -/
def QBatch.wf (b : QBatch) : Prop :=
  b.actions.length = b.size ∧ b.rewards.length = b.size ∧
    b.dones.length = b.size ∧ b.next_states.length = b.size

instance (b : QBatch) : Decidable b.wf := by
  unfold QBatch.wf; infer_instance

/-- `self.net(states).gather(1, actions_v).squeeze(-1)`: for each sample, the
online network's value of the taken action. -/
def gatherActions (net : ℕ → List ℚ) (states : List ℕ) (actions : List ℕ) : List ℚ :=
  List.zipWith (fun s a => (net s).getD a 0) states actions

/-- `tensor.max(1)[0]` on one row of action values (rows are nonempty in any
run that torch accepts; `0` is a junk value for the empty row). -/
def rowMax : List ℚ → ℚ
  | [] => 0
  | x :: xs => xs.foldl max x

/-- `self.target_net(next_states).max(1)[0]`: the greedy target-network value
of each next state. -/
def qNextRaw (target_net : ℕ → List ℚ) (next_states : List ℕ) : List ℚ :=
  next_states.map (fun s => rowMax (target_net s))

/-- `next_s_vals[dones] = 0.0`: zero out the next-state values of terminal
transitions. -/
def maskDones (vals : List ℚ) (dones : List Bool) : List ℚ :=
  List.zipWith (fun v d => if d then 0 else v) vals dones

/-- `exp_sa_vals = next_s_vals.detach() * self.gamma + rewards` (the
bootstrapped target; `detach` is a no-op in a pure model). -/
def expSaVals (gamma : ℚ) (next_s_vals : List ℚ) (rewards : List ℚ) : List ℚ :=
  List.zipWith (fun v r => v * gamma + r) next_s_vals rewards

/-- `loss = (state_action_vals - exp_sa_vals) ** 2`. -/
def lossElems (state_action_vals : List ℚ) (exp_sa_vals : List ℚ) : List ℚ :=
  List.zipWith (fun p t => (p - t) ^ 2) state_action_vals exp_sa_vals

/-- `losses_v = batch_weights * loss`. -/
def weightedLoss (batch_weights : List ℚ) (loss : List ℚ) : List ℚ :=
  List.zipWith (fun w l => w * l) batch_weights loss

/-- `tensor.mean()` of a list (sum divided by length; `ℚ` division by zero
yields the junk value `0` on the empty batch, where torch yields NaN). -/
def listMean (l : List ℚ) : ℚ := l.sum / l.length

/-- `PERDQN.loss(self, batch, batch_weights)`: returns
`(losses_v.mean(), losses_v + 1e-5)` where
`losses_v = batch_weights * (state_action_vals - exp_sa_vals)^2`. -/
def PERDQN.loss (net target_net : ℕ → List ℚ) (gamma : ℚ)
    (batch : QBatch) (batch_weights : List ℚ) : ℚ × List ℚ :=
  let state_action_vals := gatherActions net batch.states batch.actions
  let next_s_vals := maskDones (qNextRaw target_net batch.next_states) batch.dones
  let exp_sa_vals := expSaVals gamma next_s_vals batch.rewards
  let loss := lossElems state_action_vals exp_sa_vals
  let losses_v := weightedLoss batch_weights loss
  (listMean losses_v, losses_v.map (fun l => l + 1 / 100000))

/-- The prioritized replay buffer, reduced to the data the claims quantify
over: its capacity, the per-slot priority array and the cyclic write cursor.
The class `PERBuffer` itself (pl_bolts/models/rl/common/memory.py) is not
part of this tree. -/
structure PERBuffer where
  capacity : ℕ
  priorities : List ℚ
  pos : ℕ

/-- Modelled from the spec: the "default/maximal priority" (§4.4) given to a
freshly inserted transition — the maximum priority currently stored, or 1 for
an empty buffer. -/
def bufferMaxPriority : List ℚ → ℚ
  | [] => 1
  | x :: xs => xs.foldl max x

/-- Modelled from the spec: `PERBuffer.append` (source file
pl_bolts/models/rl/common/memory.py is absent from this tree).  Spec §4.1
`insert`: "if not full, append at next free slot; if full, overwrite the
least-recently-inserted slot (cyclic pointer)", and §4.4 WARMUP: fresh
transitions are inserted "with a default/maximal priority". -/
def PERBuffer.append (b : PERBuffer) : PERBuffer :=
  if b.priorities.length < b.capacity then
    { b with priorities := b.priorities ++ [bufferMaxPriority b.priorities],
             pos := (b.pos + 1) % b.capacity }
  else
    { b with priorities := b.priorities.set b.pos (bufferMaxPriority b.priorities),
             pos := (b.pos + 1) % b.capacity }

/-- Modelled from the spec: `PERBuffer.update_priorities` (source file
pl_bolts/models/rl/common/memory.py is absent from this tree).  Spec §3:
"`update_priorities(indices, new_priorities)` must accept indices previously
returned by a sample and atomically overwrite their priority"; the 1e-5
epsilon floor is applied by the caller's loss per §4.5 ("Returned priorities
= `weighted_loss + 1e-5` per sample ... these feed step 5").  A stale index
beyond the occupied slots is ignored ("fails silently", §4.1). -/
def PERBuffer.update_priorities (b : PERBuffer) (indices : List ℕ)
    (priorities : List ℚ) : PERBuffer :=
  { b with
    priorities := (indices.zip priorities).foldl (fun ps p => ps.set p.1 p.2) b.priorities }

/-- The fields of `PERDQN` that `training_step` reads or mutates.  Networks
are represented by their forward functions; the optimizer (which mutates
`net` outside `training_step`) and the agent are external collaborators. -/
structure PERState where
  net : ℕ → List ℚ
  target_net : ℕ → List ℚ
  buffer : PERBuffer
  episode_reward : ℚ
  episode_steps : ℕ
  total_reward : ℚ
  reward_list : List ℚ
  avg_reward : ℚ
  episode_count : ℕ
  total_episode_steps : ℕ

/-- The hyper-parameters of `PERDQN` that `training_step` reads. -/
structure PERConfig where
  gamma : ℚ
  sync_rate : ℕ

/-- `PERDQN.training_step(self, batch, _)`, one invocation: the trainer
supplies the minibatch `(samples, indices, weights)` and `global_step`; the
environment collaborator's `self.source.step()` supplies `reward` and `done`.
Returns the updated fields together with the returned training loss.
(The `agent.update_epsilon` call mutates only the external agent; the
dp/ddp2 `unsqueeze` reshape is excluded with distributed training.) -/
def PERDQN.training_step (cfg : PERConfig) (global_step : ℕ) (s : PERState)
    (samples : QBatch) (indices : List ℕ) (weights : List ℚ)
    (reward : ℚ) (done : Bool) : PERState × ℚ :=
  let s1 : PERState :=
    { s with
      buffer := s.buffer.append
      episode_reward := s.episode_reward + reward
      episode_steps := s.episode_steps + 1 }
  let lw := PERDQN.loss s.net s.target_net cfg.gamma samples weights
  let s2 : PERState := { s1 with buffer := s1.buffer.update_priorities indices lw.2 }
  let s3 : PERState :=
    if done then
      let rl := s2.reward_list ++ [s2.episode_reward]
      { s2 with
        total_reward := s2.episode_reward
        reward_list := rl
        avg_reward := (rl.drop (rl.length - 100)).sum / 100
        episode_count := s2.episode_count + 1
        episode_reward := 0
        total_episode_steps := s2.episode_steps
        episode_steps := 0 }
    else s2
  let s4 : PERState :=
    if global_step % cfg.sync_rate = 0 then { s3 with target_net := s3.net } else s3
  (s4, lw.1)

/-- Extended-real scalar with the two infinities and NaN: the carrier for the
float-semantics model of the priority write-back path (exact rationals stand
in for the finite floats; only finiteness is at issue there). -/
inductive FpVal where
  | nan : FpVal
  | inf : FpVal
  | ninf : FpVal
  | fin : ℚ → FpVal
deriving DecidableEq

/-- IEEE-style addition on `FpVal`: NaN absorbs, opposite infinities give
NaN, an infinity absorbs finite values. -/
def FpVal.add : FpVal → FpVal → FpVal
  | nan, _ => nan
  | _, nan => nan
  | inf, ninf => nan
  | ninf, inf => nan
  | inf, _ => inf
  | _, inf => inf
  | ninf, _ => ninf
  | _, ninf => ninf
  | fin a, fin b => fin (a + b)

/-- Finiteness test: `false` exactly on NaN and the infinities. -/
def FpVal.isFinite : FpVal → Bool
  | fin _ => true
  | _ => false

/-- The tail of `PERDQN.loss` in float semantics: `losses_v + 1e-5`, the
per-sample priorities it returns (adding the finite constant to a
non-finite element leaves it non-finite). -/
def lossPriorityOut (losses_v : List FpVal) : List FpVal :=
  losses_v.map (fun l => l.add (FpVal.fin (1 / 100000)))

/-- `PERBuffer.update_priorities` on float-valued priorities (same
slot-overwrite semantics as `PERBuffer.update_priorities`). -/
def updatePrioritiesFp (prios : List FpVal) (indices : List ℕ)
    (vals : List FpVal) : List FpVal :=
  (indices.zip vals).foldl (fun ps p => ps.set p.1 p.2) prios

/-- The priority write-back path of `PERDQN.training_step` in float
semantics: `loss, batch_weights = self.loss(samples, weights)` followed
unconditionally by `self.buffer.update_priorities(indices, batch_weights)` —
the source interposes no finiteness check between the two. -/
def trainingStepWriteback (prios : List FpVal) (indices : List ℕ)
    (losses_v : List FpVal) : List FpVal :=
  updatePrioritiesFp prios indices (lossPriorityOut losses_v)

/-- A concrete online network for witness instances. -/
def exNet : ℕ → List ℚ := fun s => [(s : ℚ), (s : ℚ) + 1]

/-- A concrete target network for witness instances. -/
def exTgt : ℕ → List ℚ := fun s => [(s : ℚ) * 2, 3]

/-- A concrete two-sample batch for witness instances. -/
def exBatch : QBatch := ⟨[0, 1], [0, 1], [1, 2], [false, true], [1, 0]⟩

/-- Concrete importance weights for witness instances. -/
def exWeights : List ℚ := [1, 1 / 2]

/-- A concrete `PERDQN` field state for witness instances. -/
def exState : PERState :=
  { net := exNet
    target_net := exTgt
    buffer := { capacity := 8, priorities := [1, 2, 3], pos := 3 }
    episode_reward := 3
    episode_steps := 4
    total_reward := 0
    reward_list := []
    avg_reward := 0
    episode_count := 0
    total_episode_steps := 0 }

/-- A concrete hyper-parameter record for witness instances. -/
def exConfig : PERConfig := { gamma := 9 / 10, sync_rate := 10 }

/-! ### Helper lemmas on lists -/

theorem zipWith_getD {α β γ : Type} (f : α → β → γ) (l1 : List α) (l2 : List β)
    (i : ℕ) (d1 : α) (d2 : β) (d3 : γ) (h1 : i < l1.length) (h2 : i < l2.length) :
    (List.zipWith f l1 l2).getD i d3 = f (l1.getD i d1) (l2.getD i d2) := by
  have hz : i < (List.zipWith f l1 l2).length := by
    rw [List.length_zipWith]; exact lt_min h1 h2
  rw [List.getD_eq_getElem _ _ hz, List.getD_eq_getElem _ _ h1, List.getD_eq_getElem _ _ h2]
  exact List.getElem_zipWith

theorem map_getD {α β : Type} (f : α → β) (l : List α) (i : ℕ) (d : α) (d2 : β)
    (h : i < l.length) :
    (l.map f).getD i d2 = f (l.getD i d) := by
  rw [List.getD_eq_getElem _ _ (by simpa using h), List.getD_eq_getElem _ _ h]
  exact List.getElem_map f

theorem sum_eq_sum_range_getD (l : List ℚ) :
    l.sum = ∑ i in Finset.range l.length, l.getD i 0 := by
  induction l with
  | nil => simp
  | cons a l ih =>
    rw [List.sum_cons, List.length_cons, Finset.sum_range_succ']
    simp [ih, add_comm]

theorem exists_of_mem_zipWith {α β γ : Type} (f : α → β → γ) (l1 : List α) (l2 : List β)
    (x : γ) (hx : x ∈ List.zipWith f l1 l2) :
    ∃ a ∈ l1, ∃ b ∈ l2, x = f a b := by
  induction l1 generalizing l2 with
  | nil => simp at hx
  | cons a l1 ih =>
    cases l2 with
    | nil => simp at hx
    | cons b l2 =>
      simp only [List.zipWith_cons_cons, List.mem_cons] at hx
      rcases hx with h | h
      · exact ⟨a, List.mem_cons_self a l1, b, List.mem_cons_self b l2, h⟩
      · rcases ih l2 h with ⟨a1, ha1, b1, hb1, hx1⟩
        exact ⟨a1, List.mem_cons_of_mem _ ha1, b1, List.mem_cons_of_mem _ hb1, hx1⟩

theorem getD_set_self {α : Type} (l : List α) (i : ℕ) (v d : α) (h : i < l.length) :
    (l.set i v).getD i d = v := by
  rw [List.getD_eq_getElem _ _ (by simpa using h)]
  exact List.getElem_set_self _

theorem getD_set_ne {α : Type} (l : List α) (i j : ℕ) (v d : α) (h : i ≠ j) :
    (l.set i v).getD j d = l.getD j d := by
  by_cases hj : j < l.length
  · rw [List.getD_eq_getElem _ _ (by simpa using hj), List.getD_eq_getElem _ _ hj]
    exact List.getElem_set_ne h _
  · rw [List.getD_eq_default _ _ (by simpa using Nat.le_of_not_lt hj),
      List.getD_eq_default _ _ (Nat.le_of_not_lt hj)]

theorem length_foldl_set {α : Type} (pairs : List (ℕ × α)) (ps : List α) :
    (pairs.foldl (fun ps p => ps.set p.1 p.2) ps).length = ps.length := by
  induction pairs generalizing ps with
  | nil => rfl
  | cons p pairs ih => rw [List.foldl_cons, ih, List.length_set]

theorem not_mem_map_fst_zip {α : Type} (k : ℕ) (idx : List ℕ) (vals : List α)
    (hk : k ∉ idx) :
    k ∉ (idx.zip vals).map Prod.fst := by
  intro hmem
  rcases List.mem_map.mp hmem with ⟨p, hp, hfst⟩
  obtain ⟨a, b⟩ := p
  exact hk (hfst ▸ (List.of_mem_zip hp).1)

theorem getD_foldl_set_not_mem {α : Type} (pairs : List (ℕ × α)) (ps : List α) (k : ℕ)
    (d : α) (hk : k ∉ pairs.map Prod.fst) :
    (pairs.foldl (fun ps p => ps.set p.1 p.2) ps).getD k d = ps.getD k d := by
  induction pairs generalizing ps with
  | nil => rfl
  | cons p pairs ih =>
    simp only [List.map_cons, List.mem_cons, not_or] at hk
    rw [List.foldl_cons, ih _ hk.2, getD_set_ne _ _ _ _ _ (Ne.symm hk.1)]

theorem getD_foldl_set_nodup {α : Type} (idx : List ℕ) (vals : List α) (ps : List α)
    (j : ℕ) (d : α) (hnd : idx.Nodup) (hj : j < idx.length) (hjv : j < vals.length)
    (hk : idx.getD j 0 < ps.length) :
    ((idx.zip vals).foldl (fun ps p => ps.set p.1 p.2) ps).getD (idx.getD j 0) d
      = vals.getD j d := by
  induction idx generalizing vals ps j with
  | nil => simp at hj
  | cons k idx ih =>
    cases vals with
    | nil => simp at hjv
    | cons v vals =>
      rcases List.nodup_cons.mp hnd with ⟨hknot, hnd2⟩
      cases j with
      | zero =>
        simp only [List.getD_cons_zero] at hk ⊢
        rw [List.zip_cons_cons, List.foldl_cons,
          getD_foldl_set_not_mem _ _ _ _ (not_mem_map_fst_zip k idx vals hknot)]
        exact getD_set_self ps k v d hk
      | succ j =>
        simp only [List.getD_cons_succ] at hk ⊢
        rw [List.zip_cons_cons, List.foldl_cons]
        exact ih vals (ps.set k v) j hnd2 (Nat.lt_of_succ_lt_succ hj)
          (Nat.lt_of_succ_lt_succ hjv) (by rw [List.length_set]; exact hk)

theorem le_foldl_max (xs : List ℚ) (x : ℚ) : x ≤ xs.foldl max x := by
  induction xs generalizing x with
  | nil => exact le_refl x
  | cons y xs ih => exact le_trans (le_max_left x y) (ih (max x y))

theorem foldl_set_forall {α : Type} (P : α → Prop) (pairs : List (ℕ × α)) (ps : List α)
    (hps : ∀ x ∈ ps, P x) (hpairs : ∀ pr ∈ pairs, P pr.2) :
    ∀ x ∈ pairs.foldl (fun ps p => ps.set p.1 p.2) ps, P x := by
  induction pairs generalizing ps with
  | nil => exact hps
  | cons p pairs ih =>
    rw [List.foldl_cons]
    refine ih (ps.set p.1 p.2) (fun x hx => ?_) (fun pr hpr => hpairs pr (List.mem_cons_of_mem _ hpr))
    rcases List.mem_or_eq_of_mem_set hx with h | h
    · exact hps x h
    · exact h ▸ hpairs p (List.mem_cons_self p pairs)

/-! ### Shape and projection lemmas about the embedded program -/

theorem loss_pipeline_lengths (net target_net : ℕ → List ℚ) (gamma : ℚ) (b : QBatch)
    (w : List ℚ) (hwf : b.wf) (hw : w.length = b.size) :
    (gatherActions net b.states b.actions).length = b.size ∧
    (maskDones (qNextRaw target_net b.next_states) b.dones).length = b.size ∧
    (expSaVals gamma (maskDones (qNextRaw target_net b.next_states) b.dones)
        b.rewards).length = b.size ∧
    (lossElems (gatherActions net b.states b.actions)
        (expSaVals gamma (maskDones (qNextRaw target_net b.next_states) b.dones)
          b.rewards)).length = b.size ∧
    (weightedLoss w
        (lossElems (gatherActions net b.states b.actions)
          (expSaVals gamma (maskDones (qNextRaw target_net b.next_states) b.dones)
            b.rewards))).length = b.size := by
  obtain ⟨ha, hr, hd, hn⟩ := hwf
  simp [gatherActions, maskDones, qNextRaw, expSaVals, lossElems, weightedLoss,
    List.length_zipWith, List.length_map, QBatch.size, ha, hr, hd, hn, hw]

theorem training_step_net (cfg : PERConfig) (global_step : ℕ) (s : PERState)
    (samples : QBatch) (indices : List ℕ) (weights : List ℚ) (reward : ℚ) (done : Bool) :
    ((PERDQN.training_step cfg global_step s samples indices weights reward done).1).net
      = s.net := by
  cases done <;> by_cases h : global_step % cfg.sync_rate = 0 <;>
    simp [PERDQN.training_step, h]

theorem training_step_buffer (cfg : PERConfig) (global_step : ℕ) (s : PERState)
    (samples : QBatch) (indices : List ℕ) (weights : List ℚ) (reward : ℚ) (done : Bool) :
    ((PERDQN.training_step cfg global_step s samples indices weights reward done).1).buffer
      = (s.buffer.append).update_priorities indices
          (PERDQN.loss s.net s.target_net cfg.gamma samples weights).2 := by
  cases done <;> by_cases h : global_step % cfg.sync_rate = 0 <;>
    simp [PERDQN.training_step, h]

theorem training_step_target_net (cfg : PERConfig) (global_step : ℕ) (s : PERState)
    (samples : QBatch) (indices : List ℕ) (weights : List ℚ) (reward : ℚ) (done : Bool) :
    ((PERDQN.training_step cfg global_step s samples indices weights reward done).1).target_net
      = if global_step % cfg.sync_rate = 0 then s.net else s.target_net := by
  cases done <;> by_cases h : global_step % cfg.sync_rate = 0 <;>
    simp [PERDQN.training_step, h]

theorem maskDones_getD (vals : List ℚ) (dones : List Bool) (i : ℕ)
    (h1 : i < vals.length) (h2 : i < dones.length) :
    (maskDones vals dones).getD i 0
      = if dones.getD i false then 0 else vals.getD i 0 := by
  unfold maskDones
  rw [zipWith_getD _ _ _ _ 0 false 0 h1 h2]

theorem expSaVals_getD (gamma : ℚ) (vals rewards : List ℚ) (i : ℕ)
    (h1 : i < vals.length) (h2 : i < rewards.length) :
    (expSaVals gamma vals rewards).getD i 0
      = vals.getD i 0 * gamma + rewards.getD i 0 := by
  unfold expSaVals
  rw [zipWith_getD _ _ _ _ 0 0 0 h1 h2]

theorem lossElems_getD (p t : List ℚ) (i : ℕ) (h1 : i < p.length) (h2 : i < t.length) :
    (lossElems p t).getD i 0 = (p.getD i 0 - t.getD i 0) ^ 2 := by
  unfold lossElems
  rw [zipWith_getD _ _ _ _ 0 0 0 h1 h2]

theorem weightedLoss_getD (w l : List ℚ) (i : ℕ) (h1 : i < w.length) (h2 : i < l.length) :
    (weightedLoss w l).getD i 0 = w.getD i 0 * l.getD i 0 := by
  unfold weightedLoss
  rw [zipWith_getD _ _ _ _ 0 0 0 h1 h2]

theorem loss_snd_getD (net target_net : ℕ → List ℚ) (gamma : ℚ) (b : QBatch)
    (w : List ℚ) (i : ℕ) (hwf : b.wf) (hw : w.length = b.size) (hi : i < b.size) :
    (PERDQN.loss net target_net gamma b w).2.getD i 0
      = w.getD i 0 *
          ((gatherActions net b.states b.actions).getD i 0 -
            (expSaVals gamma (maskDones (qNextRaw target_net b.next_states) b.dones)
              b.rewards).getD i 0) ^ 2 + 1 / 100000 := by
  obtain ⟨hg, hm, he, hl, hwl⟩ := loss_pipeline_lengths net target_net gamma b w hwf hw
  have h2 : (PERDQN.loss net target_net gamma b w).2
      = (weightedLoss w
          (lossElems (gatherActions net b.states b.actions)
            (expSaVals gamma (maskDones (qNextRaw target_net b.next_states) b.dones)
              b.rewards))).map (fun l => l + 1 / 100000) := rfl
  rw [h2, map_getD _ _ _ 0 _ (by rw [hwl]; exact hi),
    weightedLoss_getD _ _ _ (by rw [hw]; exact hi) (by rw [hl]; exact hi),
    lossElems_getD _ _ _ (by rw [hg]; exact hi) (by rw [he]; exact hi)]

/-! ### Claims -/

/-- C1: in `loss`, every batch row whose done flag is true has its next-state
value forced to exactly 0, so the bootstrapped target `exp_sa_vals` for that
row equals its reward alone, regardless of gamma; consequently the per-sample
priority that `loss` returns for that row is
`w_i * (q_pred_i - reward_i)^2 + 1e-5`. -/
theorem C1_terminal_rows_bootstrap_to_reward (net target_net : ℕ → List ℚ) (gamma : ℚ)
    (b : QBatch) (w : List ℚ) (i : ℕ) (hwf : b.wf) (hw : w.length = b.size)
    (hi : i < b.size) (hdone : b.dones.getD i false = true) :
    (maskDones (qNextRaw target_net b.next_states) b.dones).getD i 0 = 0 ∧
    (expSaVals gamma (maskDones (qNextRaw target_net b.next_states) b.dones)
        b.rewards).getD i 0 = b.rewards.getD i 0 ∧
    (PERDQN.loss net target_net gamma b w).2.getD i 0
      = w.getD i 0 *
          ((gatherActions net b.states b.actions).getD i 0 - b.rewards.getD i 0) ^ 2
        + 1 / 100000 := by
  obtain ⟨ha, hr, hd, hn⟩ := hwf
  have hqlen : (qNextRaw target_net b.next_states).length = b.size := by
    simp [qNextRaw, hn]
  have hm0 : (maskDones (qNextRaw target_net b.next_states) b.dones).getD i 0 = 0 := by
    rw [maskDones_getD _ _ _ (by rw [hqlen]; exact hi) (by rw [hd]; exact hi), hdone]
    exact if_pos rfl
  have he0 : (expSaVals gamma (maskDones (qNextRaw target_net b.next_states) b.dones)
      b.rewards).getD i 0 = b.rewards.getD i 0 := by
    rw [expSaVals_getD _ _ _ _
        (by rw [show (maskDones (qNextRaw target_net b.next_states) b.dones).length
            = b.size by simp [maskDones, List.length_zipWith, hqlen, hd]]; exact hi)
        (by rw [hr]; exact hi), hm0]
    ring
  refine ⟨hm0, he0, ?_⟩
  rw [loss_snd_getD net target_net gamma b w i ⟨ha, hr, hd, hn⟩ hw hi, he0]

/-- C2: for every well-formed batch and weight vector of matching length, the
training loss returned by `loss` equals the mean over samples of
`w_i * (q_pred_i - q_target_i)^2` — the importance-weight-scaled squared
error, averaged over the batch. -/
theorem C2_loss_is_mean_weighted_squared_error (net target_net : ℕ → List ℚ) (gamma : ℚ)
    (b : QBatch) (w : List ℚ) (hwf : b.wf) (hw : w.length = b.size) :
    (PERDQN.loss net target_net gamma b w).1
      = (∑ i in Finset.range b.size,
          w.getD i 0 *
            ((gatherActions net b.states b.actions).getD i 0 -
              (expSaVals gamma (maskDones (qNextRaw target_net b.next_states) b.dones)
                b.rewards).getD i 0) ^ 2) / (b.size : ℚ) := by
  obtain ⟨hg, hm, he, hl, hwl⟩ := loss_pipeline_lengths net target_net gamma b w hwf hw
  have h1 : (PERDQN.loss net target_net gamma b w).1
      = listMean (weightedLoss w
          (lossElems (gatherActions net b.states b.actions)
            (expSaVals gamma (maskDones (qNextRaw target_net b.next_states) b.dones)
              b.rewards))) := rfl
  rw [h1, listMean, sum_eq_sum_range_getD, hwl]
  congr 1
  refine Finset.sum_congr rfl (fun i hi => ?_)
  have hi2 : i < b.size := Finset.mem_range.mp hi
  rw [weightedLoss_getD _ _ _ (by rw [hw]; exact hi2) (by rw [hl]; exact hi2),
    lossElems_getD _ _ _ (by rw [hg]; exact hi2) (by rw [he]; exact hi2)]

/-- Witness for C1: the terminal row (index 1) of a concrete batch. -/
theorem C1_terminal_rows_bootstrap_to_reward_witness :
    (maskDones (qNextRaw exTgt exBatch.next_states) exBatch.dones).getD 1 0 = 0 ∧
    (expSaVals (9 / 10) (maskDones (qNextRaw exTgt exBatch.next_states) exBatch.dones)
        exBatch.rewards).getD 1 0 = exBatch.rewards.getD 1 0 ∧
    (PERDQN.loss exNet exTgt (9 / 10) exBatch exWeights).2.getD 1 0
      = exWeights.getD 1 0 *
          ((gatherActions exNet exBatch.states exBatch.actions).getD 1 0 -
            exBatch.rewards.getD 1 0) ^ 2 + 1 / 100000 :=
  C1_terminal_rows_bootstrap_to_reward exNet exTgt (9 / 10) exBatch exWeights 1
    (by decide) (by decide) (by decide) (by decide)

/-- Witness for C2 at a concrete batch and weight vector. -/
theorem C2_loss_is_mean_weighted_squared_error_witness :
    (PERDQN.loss exNet exTgt (9 / 10) exBatch exWeights).1
      = (∑ i in Finset.range exBatch.size,
          exWeights.getD i 0 *
            ((gatherActions exNet exBatch.states exBatch.actions).getD i 0 -
              (expSaVals (9 / 10) (maskDones (qNextRaw exTgt exBatch.next_states) exBatch.dones)
                exBatch.rewards).getD i 0) ^ 2) / (exBatch.size : ℚ) :=
  C2_loss_is_mean_weighted_squared_error exNet exTgt (9 / 10) exBatch exWeights
    (by decide) (by decide)

theorem loss_snd_length (net target_net : ℕ → List ℚ) (gamma : ℚ) (b : QBatch)
    (w : List ℚ) (hwf : b.wf) (hw : w.length = b.size) :
    (PERDQN.loss net target_net gamma b w).2.length = b.size := by
  obtain ⟨_, _, _, _, hwl⟩ := loss_pipeline_lengths net target_net gamma b w hwf hw
  have h2 : (PERDQN.loss net target_net gamma b w).2
      = (weightedLoss w
          (lossElems (gatherActions net b.states b.actions)
            (expSaVals gamma (maskDones (qNextRaw target_net b.next_states) b.dones)
              b.rewards))).map (fun l => l + 1 / 100000) := rfl
  rw [h2, List.length_map, hwl]

/-- C3: the per-sample priorities that `loss` returns are the weighted
per-sample losses plus 1e-5, and `training_step` writes exactly those values
into the buffer at the sampled indices. -/
theorem C3_written_priorities_are_weighted_loss_plus_eps (cfg : PERConfig)
    (global_step : ℕ) (s : PERState) (samples : QBatch) (indices : List ℕ)
    (weights : List ℚ) (reward : ℚ) (done : Bool) (j : ℕ) (hwf : samples.wf)
    (hw : weights.length = samples.size) (hnd : indices.Nodup)
    (hj : j < indices.length) (hjn : j < samples.size)
    (hk : indices.getD j 0 < (s.buffer.append).priorities.length) :
    (PERDQN.loss s.net s.target_net cfg.gamma samples weights).2.getD j 0
      = weights.getD j 0 *
          ((gatherActions s.net samples.states samples.actions).getD j 0 -
            (expSaVals cfg.gamma
              (maskDones (qNextRaw s.target_net samples.next_states) samples.dones)
              samples.rewards).getD j 0) ^ 2 + 1 / 100000 ∧
    ((PERDQN.training_step cfg global_step s samples indices weights
          reward done).1).buffer.priorities.getD (indices.getD j 0) 0
      = (PERDQN.loss s.net s.target_net cfg.gamma samples weights).2.getD j 0 := by
  refine ⟨loss_snd_getD s.net s.target_net cfg.gamma samples weights j hwf hw hjn, ?_⟩
  rw [training_step_buffer]
  show ((indices.zip (PERDQN.loss s.net s.target_net cfg.gamma samples weights).2).foldl
      (fun ps p => ps.set p.1 p.2) (s.buffer.append).priorities).getD (indices.getD j 0) 0 = _
  exact getD_foldl_set_nodup indices _ _ j 0 hnd hj
    (by rw [loss_snd_length s.net s.target_net cfg.gamma samples weights hwf hw]; exact hjn) hk

theorem append_priorities_pos (b : PERBuffer) (hb : ∀ p ∈ b.priorities, 0 < p) :
    ∀ p ∈ (b.append).priorities, 0 < p := by
  have hmax : 0 < bufferMaxPriority b.priorities := by
    cases hbp : b.priorities with
    | nil => norm_num [bufferMaxPriority]
    | cons x xs =>
      have hx : 0 < x := hb x (by rw [hbp]; exact List.mem_cons_self x xs)
      exact lt_of_lt_of_le hx (by rw [bufferMaxPriority]; exact le_foldl_max xs x)
  intro p hp
  by_cases hlen : b.priorities.length < b.capacity
  · simp only [PERBuffer.append, if_pos hlen, List.mem_append, List.mem_singleton] at hp
    rcases hp with h | h
    · exact hb p h
    · exact h ▸ hmax
  · simp only [PERBuffer.append, if_neg hlen] at hp
    rcases List.mem_or_eq_of_mem_set hp with h | h
    · exact hb p h
    · exact h ▸ hmax

/-- C4: with non-negative importance weights, every priority `loss` computes
is at least 1e-5 (so strictly positive), and a `training_step` invocation
keeps every priority in the buffer strictly positive. -/
theorem C4_training_step_keeps_priorities_positive (cfg : PERConfig) (global_step : ℕ)
    (s : PERState) (samples : QBatch) (indices : List ℕ) (weights : List ℚ)
    (reward : ℚ) (done : Bool) (hwpos : ∀ x ∈ weights, 0 ≤ x)
    (hbuf : ∀ p ∈ s.buffer.priorities, 0 < p) :
    (∀ q ∈ (PERDQN.loss s.net s.target_net cfg.gamma samples weights).2, 1 / 100000 ≤ q) ∧
    ∀ p ∈ ((PERDQN.training_step cfg global_step s samples indices weights
        reward done).1).buffer.priorities, 0 < p := by
  have hq : ∀ q ∈ (PERDQN.loss s.net s.target_net cfg.gamma samples weights).2,
      1 / 100000 ≤ q := by
    intro q hqm
    have h2 : (PERDQN.loss s.net s.target_net cfg.gamma samples weights).2
        = (weightedLoss weights
            (lossElems (gatherActions s.net samples.states samples.actions)
              (expSaVals cfg.gamma
                (maskDones (qNextRaw s.target_net samples.next_states) samples.dones)
                samples.rewards))).map (fun l => l + 1 / 100000) := rfl
    rw [h2] at hqm
    rcases List.mem_map.mp hqm with ⟨l, hl, rfl⟩
    unfold weightedLoss at hl
    rcases exists_of_mem_zipWith _ _ _ _ hl with ⟨a, ha, e, he, rfl⟩
    unfold lossElems at he
    rcases exists_of_mem_zipWith _ _ _ _ he with ⟨p, _, t, _, rfl⟩
    have h0 : 0 ≤ a * (p - t) ^ 2 := mul_nonneg (hwpos a ha) (sq_nonneg _)
    exact le_add_of_nonneg_left h0
  refine ⟨hq, ?_⟩
  rw [training_step_buffer]
  show ∀ p ∈ ((indices.zip (PERDQN.loss s.net s.target_net cfg.gamma samples weights).2).foldl
      (fun ps p => ps.set p.1 p.2) (s.buffer.append).priorities), 0 < p
  refine foldl_set_forall _ _ _ (append_priorities_pos s.buffer hbuf) ?_
  intro pr hpr
  obtain ⟨i, v⟩ := pr
  exact lt_of_lt_of_le (by norm_num) (hq v (List.of_mem_zip hpr).2)

/-- C5: whenever the global step count is a multiple of `sync_rate`, the
target network is overwritten wholesale with the online network's current
parameters; on all other invocations it is left unchanged. -/
theorem C5_hard_sync_every_sync_rate (cfg : PERConfig) (global_step : ℕ) (s : PERState)
    (samples : QBatch) (indices : List ℕ) (weights : List ℚ) (reward : ℚ) (done : Bool)
    (hs : 0 < cfg.sync_rate) :
    (cfg.sync_rate ∣ global_step →
      ((PERDQN.training_step cfg global_step s samples indices weights
          reward done).1).target_net = s.net) ∧
    (¬ cfg.sync_rate ∣ global_step →
      ((PERDQN.training_step cfg global_step s samples indices weights
          reward done).1).target_net = s.target_net) := by
  constructor <;> intro h <;> rw [training_step_target_net]
  · exact if_pos (Nat.dvd_iff_mod_eq_zero.mp h)
  · exact if_neg (fun hc => h (Nat.dvd_iff_mod_eq_zero.mpr hc))

/-- Witness for C3 at a concrete step (indices `[2, 0]`, sample `j = 0`,
written slot 2). -/
theorem C3_written_priorities_are_weighted_loss_plus_eps_witness :
    (PERDQN.loss exState.net exState.target_net exConfig.gamma exBatch exWeights).2.getD 0 0
      = exWeights.getD 0 0 *
          ((gatherActions exState.net exBatch.states exBatch.actions).getD 0 0 -
            (expSaVals exConfig.gamma
              (maskDones (qNextRaw exState.target_net exBatch.next_states) exBatch.dones)
              exBatch.rewards).getD 0 0) ^ 2 + 1 / 100000 ∧
    ((PERDQN.training_step exConfig 3 exState exBatch [2, 0] exWeights
          1 false).1).buffer.priorities.getD (List.getD [2, 0] 0 0) 0
      = (PERDQN.loss exState.net exState.target_net exConfig.gamma exBatch exWeights).2.getD 0 0 :=
  C3_written_priorities_are_weighted_loss_plus_eps exConfig 3 exState exBatch [2, 0]
    exWeights 1 false 0 (by decide) (by decide) (by decide) (by decide) (by decide) (by decide)

/-- Witness for C4 at a concrete step with non-negative weights and a
positive-priority buffer. -/
theorem C4_training_step_keeps_priorities_positive_witness :
    (∀ q ∈ (PERDQN.loss exState.net exState.target_net exConfig.gamma exBatch exWeights).2,
      1 / 100000 ≤ q) ∧
    ∀ p ∈ ((PERDQN.training_step exConfig 3 exState exBatch [2, 0] exWeights
        1 false).1).buffer.priorities, 0 < p :=
  C4_training_step_keeps_priorities_positive exConfig 3 exState exBatch [2, 0] exWeights 1 false
    (by intro x hx; simp [exWeights] at hx; rcases hx with rfl | rfl <;> norm_num)
    (by intro p hp; simp [exState] at hp; rcases hp with rfl | rfl | rfl <;> norm_num)

/-- Witness for C5: with `sync_rate = 10`, step 20 syncs the target network
and step 7 leaves it unchanged. -/
theorem C5_hard_sync_every_sync_rate_witness :
    ((PERDQN.training_step exConfig 20 exState exBatch [2, 0] exWeights
        1 false).1).target_net = exState.net ∧
    ((PERDQN.training_step exConfig 7 exState exBatch [2, 0] exWeights
        1 false).1).target_net = exState.target_net :=
  ⟨(C5_hard_sync_every_sync_rate exConfig 20 exState exBatch [2, 0] exWeights 1 false
      (by decide)).1 (by decide),
   (C5_hard_sync_every_sync_rate exConfig 7 exState exBatch [2, 0] exWeights 1 false
      (by decide)).2 (by decide)⟩

/-- C6: a `training_step` whose transition has `done = true` finalizes the
episode: the accumulated episode reward (including this step's reward) is
snapshotted into `total_reward`, appended to `reward_list`, the trailing
average is recomputed, `episode_count` is incremented, the completed
episode's step count is recorded in `total_episode_steps`, and both
current-episode accumulators are reset to zero. -/
theorem C6_done_finalizes_episode (cfg : PERConfig) (global_step : ℕ) (s : PERState)
    (samples : QBatch) (indices : List ℕ) (weights : List ℚ) (reward : ℚ) :
    ((PERDQN.training_step cfg global_step s samples indices weights
        reward true).1).total_reward = s.episode_reward + reward ∧
    ((PERDQN.training_step cfg global_step s samples indices weights
        reward true).1).reward_list = s.reward_list ++ [s.episode_reward + reward] ∧
    ((PERDQN.training_step cfg global_step s samples indices weights
        reward true).1).avg_reward
      = ((s.reward_list ++ [s.episode_reward + reward]).drop
          ((s.reward_list ++ [s.episode_reward + reward]).length - 100)).sum / 100 ∧
    ((PERDQN.training_step cfg global_step s samples indices weights
        reward true).1).episode_count = s.episode_count + 1 ∧
    ((PERDQN.training_step cfg global_step s samples indices weights
        reward true).1).total_episode_steps = s.episode_steps + 1 ∧
    ((PERDQN.training_step cfg global_step s samples indices weights
        reward true).1).episode_reward = 0 ∧
    ((PERDQN.training_step cfg global_step s samples indices weights
        reward true).1).episode_steps = 0 := by
  by_cases h : global_step % cfg.sync_rate = 0 <;> simp [PERDQN.training_step, h]

/-- C7: the trailing average recomputed at episode completion is the sum of
the most recent `min 100 n` completed-episode rewards divided by the constant
100; in particular after a single completed episode with accumulated reward 5
the average is `5 / 100`. -/
theorem C7_trailing_average_divides_by_constant_100 (cfg : PERConfig) (global_step : ℕ)
    (s : PERState) (samples : QBatch) (indices : List ℕ) (weights : List ℚ) (reward : ℚ) :
    ((PERDQN.training_step cfg global_step s samples indices weights
        reward true).1).avg_reward
      = ((s.reward_list ++ [s.episode_reward + reward]).drop
          ((s.reward_list ++ [s.episode_reward + reward]).length - 100)).sum / 100 ∧
    ((s.reward_list ++ [s.episode_reward + reward]).drop
        ((s.reward_list ++ [s.episode_reward + reward]).length - 100)).length
      = min 100 (s.reward_list.length + 1) ∧
    ((PERDQN.training_step exConfig 1 exState exBatch [2, 0] exWeights
        2 true).1).avg_reward = 5 / 100 := by
  refine ⟨?_, ?_, ?_⟩
  · by_cases h : global_step % cfg.sync_rate = 0 <;> simp [PERDQN.training_step, h]
  · rw [List.length_drop]
    have hlen : (s.reward_list ++ [s.episode_reward + reward]).length
        = s.reward_list.length + 1 := by simp
    omega
  · norm_num [PERDQN.training_step, exConfig, exState, exBatch, exWeights]

/-- C8: a `training_step` whose transition has `done = false` leaves the
episode history and counters unchanged and only advances the two
current-episode accumulators. -/
theorem C8_not_done_preserves_history (cfg : PERConfig) (global_step : ℕ) (s : PERState)
    (samples : QBatch) (indices : List ℕ) (weights : List ℚ) (reward : ℚ) :
    ((PERDQN.training_step cfg global_step s samples indices weights
        reward false).1).total_reward = s.total_reward ∧
    ((PERDQN.training_step cfg global_step s samples indices weights
        reward false).1).reward_list = s.reward_list ∧
    ((PERDQN.training_step cfg global_step s samples indices weights
        reward false).1).avg_reward = s.avg_reward ∧
    ((PERDQN.training_step cfg global_step s samples indices weights
        reward false).1).episode_count = s.episode_count ∧
    ((PERDQN.training_step cfg global_step s samples indices weights
        reward false).1).total_episode_steps = s.total_episode_steps ∧
    ((PERDQN.training_step cfg global_step s samples indices weights
        reward false).1).episode_reward = s.episode_reward + reward ∧
    ((PERDQN.training_step cfg global_step s samples indices weights
        reward false).1).episode_steps = s.episode_steps + 1 := by
  by_cases h : global_step % cfg.sync_rate = 0 <;> simp [PERDQN.training_step, h]

/-- C9 counterexample: a NaN per-sample loss value IS written back into the
buffer by the priority write-back path — the claim that non-finite values are
clamped or skipped is false on the code. -/
theorem C9_counterexample_nan_written_back :
    trainingStepWriteback [FpVal.fin 1] [0] [FpVal.nan] = [FpVal.nan] ∧
    FpVal.isFinite FpVal.nan = false :=
  ⟨rfl, rfl⟩

/-- C9 amended: `training_step` interposes no finiteness check: whatever
per-sample value `loss` produces — finite or not — is written verbatim (after
the 1e-5 offset, which leaves non-finite values non-finite) into the buffer
slot named by the sampled index. -/
theorem C9_amended_writeback_unchecked (prios : List FpVal) (k : ℕ) (v : FpVal)
    (hk : k < prios.length) (hv : v.isFinite = false) :
    ((trainingStepWriteback prios [k] [v]).getD k FpVal.nan).isFinite = false := by
  have h1 : trainingStepWriteback prios [k] [v]
      = prios.set k (v.add (FpVal.fin (1 / 100000))) := rfl
  rw [h1, getD_set_self _ _ _ _ hk]
  cases v with
  | nan => rfl
  | inf => rfl
  | ninf => rfl
  | fin q => simp [FpVal.isFinite] at hv

/-- Witness for the amended C9: the NaN written at slot 0 is non-finite. -/
theorem C9_amended_writeback_unchecked_witness :
    ((trainingStepWriteback [FpVal.fin 1] [0] [FpVal.nan]).getD 0 FpVal.nan).isFinite
      = false :=
  C9_amended_writeback_unchecked [FpVal.fin 1] 0 FpVal.nan (by decide) rfl

/-- C10: on the invocation with global step count 0, the sync condition
`0 % sync_rate = 0` holds for every positive `sync_rate`, so the target
network is overwritten with the online network's parameters on the very
first step. -/
theorem C10_first_step_always_syncs (cfg : PERConfig) (s : PERState) (samples : QBatch)
    (indices : List ℕ) (weights : List ℚ) (reward : ℚ) (done : Bool)
    (hs : 0 < cfg.sync_rate) :
    ((PERDQN.training_step cfg 0 s samples indices weights reward done).1).target_net
      = s.net := by
  rw [training_step_target_net]
  exact if_pos (Nat.zero_mod _)

/-- Witness for C10 at a concrete configuration with `sync_rate = 10`. -/
theorem C10_first_step_always_syncs_witness :
    ((PERDQN.training_step exConfig 0 exState exBatch [2, 0] exWeights
        1 false).1).target_net = exState.net :=
  C10_first_step_always_syncs exConfig exState exBatch [2, 0] exWeights 1 false (by decide)
